import Mathlib

/-!
Verification development for the AutoViz-Insight data core.

The embedded components, translated from the TypeScript sources:
* `parseCSV` (services/dataService): CSV ingestion with per-cell numeric
  inference and the 3000-row retention cap;
* `calculateCorrelations` / `calculatePearson`: the Pearson correlation
  matrix engine;
* `queryData`: the filter / group / aggregate / sort / cap query engine;
* `sanitizeAnalysisResult` (App): reconciliation of AI-proposed chart
  field names against the dataset's real columns.

Modelling conventions: JavaScript numbers are embedded as `ℚ` (exact
arithmetic; IEEE-754 rounding noise is outside the model), except the
Pearson coefficient which needs a square root and therefore lives in `ℝ`.
JavaScript's `NaN` has no counterpart in `ℚ`; functions that would produce
`NaN` in JS return `Option` (`none` = NaN) at the point where the NaN is
decided.  Row objects are insertion-ordered association lists, matching
JS object key order for the non-integer-like string keys produced here.
-/

namespace AutoViz

/-- A JS value as it occurs in dataset rows: a number, a string, or
`undefined`/missing (`null` constructor). -/
inductive Value where
  | num (q : ℚ)
  | str (s : String)
  | null
deriving DecidableEq, Repr

/-- A dataset row: insertion-ordered association list from column name to
value, mirroring a plain JS object. -/
abbrev Row := List (String × Value)

/-- Property read `row[k]`: the first binding wins (keys are unique for rows
built by this pipeline); a missing key reads as `undefined`. -/
def Row.get (r : Row) (k : String) : Value :=
  match r.find? (fun p => p.1 = k) with
  | some p => p.2
  | none => .null

/-- Property write `row[k] = v`: replaces the value in place if the key
exists (JS keeps the original key position), else appends. -/
def Row.insert (r : Row) (k : String) (v : Value) : Row :=
  match r with
  | [] => [(k, v)]
  | (k', v') :: rest => if k' = k then (k, v) :: rest else (k', v') :: Row.insert rest k v

/-- Is this value a JS number? (`typeof v === 'number'`). -/
def Value.isNum : Value → Bool
  | .num _ => true
  | _ => false

/-! ### String primitives (JS semantics, restricted to the model's needs) -/

/-- The whitespace set JS `trim()` and `Number()` strip: ASCII whitespace,
NBSP, BOM and the Unicode line separators. -/
def jsWhitespace (c : Char) : Bool :=
  c = ' ' || c = '\t' || c = '\n' || c = '\r' ||
  c = Char.ofNat 0x0b || c = Char.ofNat 0x0c ||
  c = Char.ofNat 0xa0 || c = Char.ofNat 0x2028 ||
  c = Char.ofNat 0x2029 || c = Char.ofNat 0xfeff

/-- Strip leading and trailing JS whitespace from a char list. -/
def jsTrimList (cs : List Char) : List Char :=
  ((cs.dropWhile jsWhitespace).reverse.dropWhile jsWhitespace).reverse

/-- JS `String.prototype.trim`. -/
def jsTrim (s : String) : String :=
  String.mk (jsTrimList s.toList)

/-- JS `String.prototype.toLowerCase`, restricted to the ASCII mapping of
`Char.toLower` (the repository only lower-cases column names). -/
def jsToLower (s : String) : String :=
  String.mk (s.toList.map Char.toLower)

/-- Does `hay` start with `needle`? -/
def startsWithL : List Char → List Char → Bool
  | _, [] => true
  | [], _ :: _ => false
  | c :: cs, d :: ds => c = d && startsWithL cs ds

/-- JS `String.prototype.includes` on char lists. -/
def containsL : List Char → List Char → Bool
  | [], needle => needle.isEmpty
  | c :: t, needle => startsWithL (c :: t) needle || containsL t needle

/-- JS `hay.includes(needle)`. -/
def strContains (hay needle : String) : Bool :=
  containsL hay.toList needle.toList

/-- Rewrite every CRLF pair to a bare LF, leaving lone CRs in place; this
makes a single split on LF equivalent to the source's `split(/\r\n|\n/)`. -/
def normCRLF : List Char → List Char
  | [] => []
  | '\r' :: '\n' :: rest => '\n' :: normCRLF rest
  | c :: rest => c :: normCRLF rest

/-- Split a char list on a separator character; `n` separators produce
`n + 1` (possibly empty) fields, as JS `split` does. -/
def splitOnChar (sep : Char) : List Char → List (List Char)
  | [] => [[]]
  | c :: rest =>
    match splitOnChar sep rest with
    | [] => if c = sep then [[], []] else [[c]]
    | l :: ls => if c = sep then [] :: l :: ls else (c :: l) :: ls

/-- The source's `csvText.split(/\r\n|\n/)`. -/
def splitLines (s : String) : List String :=
  (splitOnChar '\n' (normCRLF s.toList)).map String.mk

/-- The source's `line.split(',')` (naive: no quoted-comma escaping). -/
def splitOnComma (s : String) : List String :=
  (splitOnChar ',' s.toList).map String.mk

/-- The source's `replace(/^"|"$/g, '')`: strip one leading and one trailing
double quote, each if present. -/
def stripQuotes (s : String) : String :=
  let l :=
    match s.toList with
    | '"' :: rest => rest
    | l => l
  match l.reverse with
  | '"' :: rest => String.mk rest.reverse
  | _ => String.mk l

/-! ### JS `Number(string)` (decimal / hex / octal / binary literals)

Modelled: the `StringNumericLiteral` grammar over exact rationals.
`Infinity` is not representable in `ℚ` and is treated as not-a-number;
no claim touches it. -/

/-- Decimal digit test. -/
def isDigitChar (c : Char) : Bool := '0' ≤ c && c ≤ '9'

/-- Value of a digit character in an arbitrary radix (supports `0-9a-fA-F`). -/
def digitValue (c : Char) : ℕ :=
  if '0' ≤ c && c ≤ '9' then c.toNat - '0'.toNat
  else if 'a' ≤ c && c ≤ 'f' then c.toNat - 'a'.toNat + 10
  else if 'A' ≤ c && c ≤ 'F' then c.toNat - 'A'.toNat + 10
  else 0

/-- Is `c` a digit of radix `b`? -/
def isRadixDigit (b : ℕ) (c : Char) : Bool :=
  (isDigitChar c && c.toNat - '0'.toNat < b) ||
  (('a' ≤ c && c ≤ 'f') && c.toNat - 'a'.toNat + 10 < b) ||
  (('A' ≤ c && c ≤ 'F') && c.toNat - 'A'.toNat + 10 < b)

/-- Digits to their value in radix `b`. -/
def digitsToNat (b : ℕ) (ds : List Char) : ℕ :=
  ds.foldl (fun a c => b * a + digitValue c) 0

/-- Parse a non-decimal radix literal body (after `0x`/`0o`/`0b`). -/
def parseRadix (b : ℕ) (ds : List Char) : Option ℚ :=
  if ds ≠ [] ∧ ds.all (isRadixDigit b) then some (digitsToNat b ds) else none

/-- Parse the optional exponent part of a decimal literal; `[]` means no
exponent (scale 0). -/
def parseExponentPart : List Char → Option ℤ
  | [] => some 0
  | e :: rest =>
    if e = 'e' ∨ e = 'E' then
      let signed : ℤ × List Char :=
        match rest with
        | '+' :: r => (1, r)
        | '-' :: r => (-1, r)
        | r => (1, r)
      if signed.2 ≠ [] ∧ signed.2.all isDigitChar then
        some (signed.1 * (digitsToNat 10 signed.2 : ℤ))
      else none
    else none

/-- Scale a mantissa by a signed power of ten. -/
def applyExp (m : ℚ) (e : ℤ) : ℚ :=
  if 0 ≤ e then m * (10 : ℚ) ^ e.toNat else m / (10 : ℚ) ^ (-e).toNat

/-- Parse an unsigned decimal literal `digits [. digits] [exp]` or
`. digits [exp]`. -/
def parseUnsignedDecimal (cs : List Char) : Option ℚ :=
  let intSpan := cs.span isDigitChar
  match intSpan.2 with
  | '.' :: rest2 =>
    let fracSpan := rest2.span isDigitChar
    if intSpan.1 = [] ∧ fracSpan.1 = [] then none
    else
      (parseExponentPart fracSpan.2).map (fun e =>
        applyExp ((digitsToNat 10 intSpan.1 : ℚ) +
          (digitsToNat 10 fracSpan.1 : ℚ) / (10 : ℚ) ^ fracSpan.1.length) e)
  | _ =>
    if intSpan.1 = [] then none
    else (parseExponentPart intSpan.2).map (fun e => applyExp (digitsToNat 10 intSpan.1 : ℚ) e)

/-- Parse a signed decimal literal. -/
def parseSignedDecimal (cs : List Char) : Option ℚ :=
  match cs with
  | '+' :: rest => parseUnsignedDecimal rest
  | '-' :: rest => (parseUnsignedDecimal rest).map Neg.neg
  | _ => parseUnsignedDecimal cs

/-- JS `Number(s)` on a string: trims, maps the empty string to `0`, accepts
radix-prefixed integer literals and signed decimal literals; `none` is NaN. -/
def parseNumber (s : String) : Option ℚ :=
  match jsTrimList s.toList with
  | [] => some 0
  | '0' :: x :: rest =>
    if x = 'x' ∨ x = 'X' then parseRadix 16 rest
    else if x = 'o' ∨ x = 'O' then parseRadix 8 rest
    else if x = 'b' ∨ x = 'B' then parseRadix 2 rest
    else parseSignedDecimal ('0' :: x :: rest)
  | cs => parseSignedDecimal cs

/-- JS `Number(v)` on a row value: numbers pass through, strings are parsed,
`undefined` is NaN. -/
def jsToNumber : Value → Option ℚ
  | .num q => some q
  | .str s => parseNumber s
  | .null => none

/-- JS `String(v)`: strings pass through, `undefined` prints as
`"undefined"`.  JS prints numbers as shortest round-trip decimals; within
the `ℚ` embedding we use the canonical rational rendering, which agrees
with JS on integers (the values the claims exercise) and is injective. -/
def Value.toStr : Value → String
  | .num q => if q.den = 1 then toString q.num else toString q.num ++ "/" ++ toString q.den
  | .str s => s
  | .null => "undefined"

/-! ### Tabular ingestion (`parseCSV`, services/dataService.ts) -/

/-- A parsed dataset.  The source also assigns `id := crypto.randomUUID()`,
an environment-supplied random identifier outside the pure model; no claim
mentions it. -/
structure Dataset where
  name : String
  data : List Row
  rowCount : ℕ
deriving DecidableEq, Repr

/-- Per-field processing of a data cell: trim, strip one layer of wrapping
quotes, then coerce to a number when `Number(value)` is not NaN and the
value is not the empty string. -/
def parseField (raw : String) : Value :=
  match parseNumber (stripQuotes (jsTrim raw)) with
  | some q =>
    if stripQuotes (jsTrim raw) ≠ "" then .num q else .str (stripQuotes (jsTrim raw))
  | none => .str (stripQuotes (jsTrim raw))

/-- Build a row object from headers and the fields of an accepted line
(`row[header] = value` in header order; a duplicate header overwrites). -/
def mkRow (headers : List String) (fields : List String) : Row :=
  (headers.zip fields).foldl (fun r p => Row.insert r p.1 (parseField p.2)) []

/-- Strip a byte-order mark from the front of the first header, as the
source does after trimming and quote-stripping. -/
def stripBOMHeader (hs : List String) : List String :=
  match hs with
  | [] => []
  | h :: t =>
    match h.toList with
    | c :: cs => if c.toNat = 0xFEFF then String.mk cs :: t else h :: t
    | [] => h :: t

/-- Header processing for the first non-blank line. -/
def parsedHeaders (headerLine : String) : List String :=
  stripBOMHeader ((splitOnComma headerLine).map (fun h => stripQuotes (jsTrim h)))

/-- `parseCSV(csvText, fileName)`: split into lines, drop blank lines, read
headers, accept exactly the lines whose comma-split field count equals the
header count, truncate retained rows to 3000 while recording the
untruncated accepted count.  `none` models the `"File is empty"` throw. -/
def parseCSV (csvText : String) (fileName : String) : Option Dataset :=
  match (splitLines csvText).filter (fun l => jsTrim l ≠ "") with
  | [] => none
  | headerLine :: dataLines =>
    let headers := parsedHeaders headerLine
    let rows := (dataLines.filter (fun line => (splitOnComma line).length = headers.length)).map
      (fun line => mkRow headers (splitOnComma line))
    some { name := fileName, data := rows.take 3000, rowCount := rows.length }

/-! ### Query engine (`queryData`, services/dataService.ts) -/

/-- A structured filter predicate.  The operator is kept as a raw string
because the source dispatches on it with a `switch` whose `default` arm
passes the row. -/
structure QueryFilter where
  column : String
  op : String
  value : Value
deriving DecidableEq, Repr

/-- The aggregate kinds of a query intent. -/
inductive AggType where
  | SUM
  | AVG
  | COUNT
  | COUNT_DISTINCT
deriving DecidableEq, Repr

/-- A query intent, as produced by intent interpretation.  Fields not read
by `queryData` (`chartType`, `title`, chat text) are omitted. -/
structure QueryIntent where
  filters : List QueryFilter
  groupBy : Option String
  aggregateColumn : Option String
  aggregateType : Option AggType
deriving DecidableEq, Repr

/-- JS abstract relational comparison `a < b` restricted to row values:
two strings compare lexicographically, otherwise both sides convert with
`Number` and a NaN on either side yields `none` (every comparison with
NaN is false). -/
def jsCmpLt (a b : Value) : Option Bool :=
  match a, b with
  | .str s1, .str s2 => some (decide (s1 < s2))
  | _, _ =>
    match jsToNumber a, jsToNumber b with
    | some x, some y => some (decide (x < y))
    | _, _ => none

/-- JS `a > b`. -/
def jsGreater (a b : Value) : Bool := (jsCmpLt b a).getD false

/-- JS `a < b`. -/
def jsLess (a b : Value) : Bool := (jsCmpLt a b).getD false

/-- JS `a >= b` (`¬(a < b)`, false when NaN is involved). -/
def jsGE (a b : Value) : Bool :=
  match jsCmpLt a b with
  | some r => !r
  | none => false

/-- JS `a <= b` (`¬(b < a)`, false when NaN is involved). -/
def jsLE (a b : Value) : Bool :=
  match jsCmpLt b a with
  | some r => !r
  | none => false

/-- One filter predicate applied to a row: the `switch (filter.operator)`
of the source, including the fail-open `default` arm. -/
def satisfiesFilter (row : Row) (f : QueryFilter) : Bool :=
  let rowVal := Row.get row f.column
  if f.op = "==" then jsToLower (Value.toStr rowVal) = jsToLower (Value.toStr f.value)
  else if f.op = ">" then jsGreater rowVal f.value
  else if f.op = "<" then jsLess rowVal f.value
  else if f.op = ">=" then jsGE rowVal f.value
  else if f.op = "<=" then jsLE rowVal f.value
  else if f.op = "contains" then
    strContains (jsToLower (Value.toStr rowVal)) (jsToLower (Value.toStr f.value))
  else true

/-- Stage 1 of `queryData`: keep a row only if every filter accepts it; an
empty filter list skips the stage (same result). -/
def filterRows (filters : List QueryFilter) (rows : List Row) : List Row :=
  if filters.length > 0 then rows.filter (fun r => filters.all (satisfiesFilter r)) else rows

/-- Append `v` to the bucket of key `k`, creating the bucket at the end on
first occurrence — the accumulation `groups[key].push(val)` over a JS
record, in insertion order. -/
def addToGroups (gs : List (String × List ℚ)) (k : String) (v : ℚ) : List (String × List ℚ) :=
  match gs with
  | [] => [(k, [v])]
  | (k', vs) :: rest =>
    if k' = k then (k', vs ++ [v]) :: rest else (k', vs) :: addToGroups rest k v

/-- The group key of a row: `String(row[g])`. -/
def keyOf (g : String) (r : Row) : String := Value.toStr (Row.get r g)

/-- The coerced aggregate contribution of a row: `Number(row[a]) || 0`
(non-numeric and missing values coerce to `0`). -/
def valOf (a : String) (r : Row) : ℚ := (jsToNumber (Row.get r a)).getD 0

/-- Partition rows into buckets keyed by `String(row[g])`, collecting
`Number(row[a]) || 0` per row.  JS object key enumeration moves
integer-like keys to the front; the buckets are kept in first-insertion
order here, a difference observable only through the unspecified tie
order of the final sort. -/
def buildGroups (rows : List Row) (g a : String) : List (String × List ℚ) :=
  rows.foldl (fun gs r => addToGroups gs (keyOf g r) (valOf a r)) []

/-- Bucket lookup by key (first match). -/
def lookupG (gs : List (String × List ℚ)) (k : String) : Option (List ℚ) :=
  (gs.find? (fun p => p.1 = k)).map Prod.snd

/-- The values the specification says group `k` collects: the coerced
aggregate-column values of exactly the rows whose key is `k`, in row
order.  Stated from the spec's words, to be compared with `buildGroups`. -/
def groupVals (g a : String) (k : String) (rows : List Row) : List ℚ :=
  (rows.filter (fun r => keyOf g r = k)).map (valOf a)

/-- Aggregate a bucket (`values` is never empty for buckets built by
`buildGroups`, so the `AVG` division is never by zero). -/
def aggValue : AggType → List ℚ → ℚ
  | .SUM, vs => vs.foldl (· + ·) 0
  | .AVG, vs => vs.foldl (· + ·) 0 / (vs.length : ℚ)
  | .COUNT, vs => (vs.length : ℚ)
  | .COUNT_DISTINCT, vs => ((vs.foldl (fun acc v => if v ∈ acc then acc else acc ++ [v]) []).length : ℚ)

/-- `Math.round(x * 100) / 100` — round to two decimal places, ties up. -/
def round2 (q : ℚ) : ℚ := (round (q * 100) : ℤ) / 100

/-- The output row of one group: `{ [groupBy]: key, [aggCol]: rounded }`
(when the two column names coincide the later property assignment wins). -/
def aggRow (g a : String) (t : AggType) (key : String) (vs : List ℚ) : Row :=
  Row.insert (Row.insert [] g (.str key)) a (.num (round2 (aggValue t vs)))

/-- The numeric sort key `row[aggCol]` of an aggregated output row. -/
def aggOf (a : String) (r : Row) : ℚ :=
  match Row.get r a with
  | .num q => q
  | _ => 0

/-- Insert into a descending-sorted list, after any equal keys — the
unique stable descending order of `sort((a, b) => b[agg] - a[agg])`. -/
def insertDesc (a : String) (r : Row) : List Row → List Row
  | [] => [r]
  | r' :: rest => if aggOf a r ≤ aggOf a r' then r' :: insertDesc a r rest else r :: r' :: rest

/-- Stable descending sort by the aggregate field. -/
def sortDesc (a : String) (rows : List Row) : List Row :=
  rows.foldl (fun acc r => insertDesc a r acc) []

/-- Stage 2 of `queryData` when entered: group, aggregate, round, and
sort descending by the aggregate field. -/
def groupedResult (rows : List Row) (g a : String) (t : AggType) : List Row :=
  sortDesc a ((buildGroups rows g a).map (fun p => aggRow g a t p.1 p.2))

/-- Stage 2 of `queryData`, dispatching on the truthiness test
`intent.groupBy && intent.aggregateColumn && intent.aggregateType`;
when it fails the rows pass through unchanged. -/
def groupStage (rows : List Row) (intent : QueryIntent) : List Row :=
  match intent.groupBy, intent.aggregateColumn, intent.aggregateType with
  | some g, some a, some t => if g ≠ "" ∧ a ≠ "" then groupedResult rows g a t else rows
  | _, _, _ => rows

/-- `queryData(data, intent)`: filter, then group/aggregate/sort, then cap
at the first 50 rows. -/
def queryData (data : List Row) (intent : QueryIntent) : List Row :=
  (groupStage (filterRows intent.filters data) intent).take 50

/-! ### Correlation engine (`calculateCorrelations`, services/dataService.ts)

The Pearson coefficient divides by a real square root, so matrix entries
live in `ℝ` and the two definitions below are the only noncomputable part
of the model.  Claims never need to evaluate an irrational entry. -/

/-- An ordered variable list and a square coefficient matrix.  The source
names the first field `variables`, a reserved word in Lean. -/
structure CorrelationMatrix where
  vars : List String
  matrix : List (List ℝ)

/-- The confirmed-numeric candidates: a column passes only when every one
of the first 50 rows (all rows if fewer) holds a JS number in it. -/
def numericColumns (data : List Row) (columns : List String) : List String :=
  columns.filter (fun col => (data.take 50).all (fun row => (Row.get row col).isNum))

/-- The extraction `data.map(d => d[col] as number)`.  The TS cast is the
identity at runtime; a non-numeric value would drive the JS arithmetic
into NaN/string coercion, which has no counterpart in this embedding and
is mapped to `0` — matrix-entry theorems therefore carry a hypothesis
that the confirmed columns are numeric in every retained row. -/
def colVals (data : List Row) (col : String) : List ℚ :=
  data.map (fun row =>
    match Row.get row col with
    | .num q => q
    | _ => 0)

/-- The squared Pearson denominator `(nΣx² − (Σx)²)(nΣy² − (Σy)²)`,
kept in `ℚ` (it is a polynomial in the data). -/
def pearsonDenomSq (x y : List ℚ) : ℚ :=
  let n : ℚ := (x.length : ℚ)
  let sumX := x.foldl (· + ·) 0
  let sumY := y.foldl (· + ·) 0
  let sumX2 := x.foldl (fun a b => a + b * b) 0
  let sumY2 := y.foldl (fun a b => a + b * b) 0
  (n * sumX2 - sumX * sumX) * (n * sumY2 - sumY * sumY)

/-- The Pearson numerator `nΣxy − ΣxΣy`.  The source iterates over the
indices of `x` reading `y[i]`; both callers pass equal-length lists, which
the `zip` encodes. -/
def pearsonNum (x y : List ℚ) : ℚ :=
  let n : ℚ := (x.length : ℚ)
  let sumX := x.foldl (· + ·) 0
  let sumY := y.foldl (· + ·) 0
  let sumXY := (x.zip y).foldl (fun a p => a + p.1 * p.2) 0
  n * sumXY - sumX * sumY

/-- `Number(x.toFixed(2))` — round to two decimal places (exact-arithmetic
model; ECMAScript `toFixed` picks the larger candidate on ties, i.e.
rounds half up, matching `round`). -/
noncomputable def round2R (x : ℝ) : ℝ := ((round (x * 100) : ℤ) : ℝ) / 100

/-- `calculatePearson(x, y)`: `0` for empty input, `0` when the
denominator is zero, otherwise the rounded coefficient. -/
noncomputable def calculatePearson (x y : List ℚ) : ℝ :=
  if x.length = 0 then 0
  else
    let denominator : ℝ := Real.sqrt ((pearsonDenomSq x y : ℚ) : ℝ)
    if denominator = 0 then 0 else round2R (((pearsonNum x y : ℚ) : ℝ) / denominator)

/-- `calculateCorrelations(data, columns)`: restrict to confirmed-numeric
columns, then fill the square matrix with `1` on the diagonal and the
pairwise coefficient over the full row sequence elsewhere. -/
noncomputable def calculateCorrelations (data : List Row) (columns : List String) :
    CorrelationMatrix :=
  let numericCols := numericColumns data columns
  { vars := numericCols
    matrix :=
      (List.range numericCols.length).map (fun i =>
        (List.range numericCols.length).map (fun j =>
          if i = j then (1 : ℝ)
          else calculatePearson (colVals data (numericCols.getD i ""))
            (colVals data (numericCols.getD j "")))) }

/-- The caller-side degeneracy check of `CorrelationHeatmap`: the fallback
"Not enough numeric data for correlations" is rendered exactly when fewer
than two variables survive. -/
def heatmapInsufficient (m : CorrelationMatrix) : Bool :=
  m.vars.length < 2

/-! ### Result reconciliation (`sanitizeAnalysisResult`, App.tsx) -/

/-- The chart kinds of the analysis schema. -/
inductive ChartType where
  | BAR
  | LINE
  | SCATTER
  | PIE
  | AREA
deriving DecidableEq, Repr

/-- An AI-proposed chart configuration. -/
structure ChartConfig where
  id : String
  type : ChartType
  title : String
  description : String
  xKey : String
  yKey : String
  categoryKey : Option String
deriving DecidableEq, Repr

/-- A column profile as returned by the external analysis step. -/
structure ColumnProfile where
  name : String
  type : String
  missingCount : ℚ
  uniqueCount : ℚ
  exampleValues : List String
deriving DecidableEq, Repr

/-- The AI analysis result. -/
structure AnalysisResult where
  summary : String
  columns : List ColumnProfile
  recommendedCharts : List ChartConfig
  insights : List String
deriving DecidableEq, Repr

/-- The source's `findKey`: empty keys pass through (JS falsiness guard),
an exact member of `validKeys` is kept, else the first case-insensitive
match is substituted (`match || key`: an empty match would fall back to
the key, though that case is unreachable), else the key is kept. -/
def findKey (validKeys : List String) (key : String) : String :=
  if key = "" then key
  else if validKeys.contains key then key
  else
    match validKeys.find? (fun k => jsToLower k = jsToLower key) with
    | some m => if m ≠ "" then m else key
    | none => key

/-- Resolution of the three key fields of one chart config; an empty
`categoryKey` string is falsy in JS and collapses to `undefined`. -/
def sanitizeChart (validKeys : List String) (c : ChartConfig) : ChartConfig :=
  { c with
    xKey := findKey validKeys c.xKey
    yKey := findKey validKeys c.yKey
    categoryKey :=
      match c.categoryKey with
      | some k => if k ≠ "" then some (findKey validKeys k) else none
      | none => none }

/-- `sanitizeAnalysisResult(result, dataset)`: with no rows the result is
returned unchanged; otherwise every chart's keys are resolved against the
first row's column names and charts whose resolved `xKey` or `yKey` is
still not a real column are dropped. -/
def sanitizeAnalysisResult (result : AnalysisResult) (dataset : Dataset) : AnalysisResult :=
  match dataset.data with
  | [] => result
  | firstRow :: _ =>
    let validKeys := firstRow.map Prod.fst
    { result with
      recommendedCharts :=
        (result.recommendedCharts.map (sanitizeChart validKeys)).filter
          (fun c => validKeys.contains c.xKey && validKeys.contains c.yKey) }

/-- The resolution rule in the words of the specification: an exact match
wins; else the first case-insensitive match wins; else the original name
is kept.  Stated separately from `findKey` to compare the code against
the spec. -/
def resolveKeySpec (validKeys : List String) (key : String) : String :=
  if validKeys.contains key then key
  else
    match validKeys.find? (fun k => jsToLower k = jsToLower key) with
    | some m => m
    | none => key

/-! ### Supporting lemmas -/

theorem jsToLower_eq_empty_iff (s : String) : jsToLower s = "" ↔ s = "" := by
  obtain ⟨l⟩ := s
  unfold jsToLower
  constructor
  · intro h
    have hl : l.map Char.toLower = [] := congrArg String.data h
    simp only [List.map_eq_nil_iff] at hl
    simp [String.toList, hl]
  · intro h
    have hl : l = [] := congrArg String.data h
    simp [String.toList, hl]

theorem findKey_eq_resolveKeySpec (vk : List String) (k : String) :
    findKey vk k = resolveKeySpec vk k := by
  by_cases hk : k = ""
  · subst hk
    unfold findKey resolveKeySpec
    simp only [if_pos rfl]
    by_cases hc : "" ∈ vk
    · simp [hc]
    · simp only [List.elem_iff, hc, if_false]
      cases hfind : vk.find? (fun x => jsToLower x = jsToLower "") with
      | none => rfl
      | some m =>
        exfalso
        have hmem := List.mem_of_find?_eq_some hfind
        have hpred := List.find?_some hfind
        have hml : jsToLower m = jsToLower "" := by simpa using hpred
        rw [show jsToLower "" = "" from rfl] at hml
        rw [(jsToLower_eq_empty_iff m).mp hml] at hmem
        exact hc hmem
  · unfold findKey resolveKeySpec
    simp only [if_neg hk]
    by_cases hc : k ∈ vk
    · simp [hc]
    · simp only [List.elem_iff, hc, if_false]
      cases hfind : vk.find? (fun x => jsToLower x = jsToLower k) with
      | none => rfl
      | some m =>
        have hpred := List.find?_some hfind
        have hml : jsToLower m = jsToLower k := by simpa using hpred
        have hm : m ≠ "" := by
          intro hme
          rw [hme] at hml
          exact hk ((jsToLower_eq_empty_iff k).mp hml.symm)
        simp [hm]

theorem insertDesc_perm (a : String) (r : Row) (l : List Row) :
    (insertDesc a r l).Perm (r :: l) := by
  induction l with
  | nil => simp [insertDesc]
  | cons r' rest ih =>
    unfold insertDesc
    by_cases h : aggOf a r ≤ aggOf a r'
    · simp only [if_pos h]
      exact (ih.cons r').trans (List.Perm.swap r r' rest)
    · simp [if_neg h]

theorem mem_insertDesc {a : String} {r x : Row} {l : List Row} :
    x ∈ insertDesc a r l ↔ x = r ∨ x ∈ l := by
  have h : x ∈ insertDesc a r l ↔ x ∈ r :: l := (insertDesc_perm a r l).mem_iff
  simpa using h

theorem insertDesc_pairwise (a : String) (r : Row) (l : List Row)
    (h : l.Pairwise (fun r1 r2 => aggOf a r2 ≤ aggOf a r1)) :
    (insertDesc a r l).Pairwise (fun r1 r2 => aggOf a r2 ≤ aggOf a r1) := by
  induction l with
  | nil => simp [insertDesc]
  | cons r' rest ih =>
    rw [List.pairwise_cons] at h
    unfold insertDesc
    by_cases hc : aggOf a r ≤ aggOf a r'
    · simp only [if_pos hc]
      rw [List.pairwise_cons]
      refine ⟨fun x hx => ?_, ih h.2⟩
      rcases mem_insertDesc.mp hx with rfl | hx
      · exact hc
      · exact h.1 x hx
    · simp only [if_neg hc]
      push_neg at hc
      rw [List.pairwise_cons]
      refine ⟨fun x hx => ?_, List.pairwise_cons.mpr h⟩
      rcases List.mem_cons.mp hx with rfl | hx
      · exact le_of_lt hc
      · exact le_trans (h.1 x hx) (le_of_lt hc)

theorem sortDesc_aux_perm (a : String) (l acc : List Row) :
    (l.foldl (fun acc r => insertDesc a r acc) acc).Perm (acc ++ l) := by
  induction l generalizing acc with
  | nil => simp
  | cons r rest ih =>
    simp only [List.foldl_cons]
    refine (ih (insertDesc a r acc)).trans ?_
    have h1 : (insertDesc a r acc ++ rest).Perm ((r :: acc) ++ rest) :=
      (insertDesc_perm a r acc).append_right rest
    refine h1.trans ?_
    have hmid : (r :: (acc ++ rest)).Perm (acc ++ r :: rest) := List.perm_middle.symm
    simpa using hmid

theorem sortDesc_perm (a : String) (l : List Row) : (sortDesc a l).Perm l := by
  simpa using sortDesc_aux_perm a l []

theorem sortDesc_aux_pairwise (a : String) (l acc : List Row)
    (h : acc.Pairwise (fun r1 r2 => aggOf a r2 ≤ aggOf a r1)) :
    (l.foldl (fun acc r => insertDesc a r acc) acc).Pairwise
      (fun r1 r2 => aggOf a r2 ≤ aggOf a r1) := by
  induction l generalizing acc with
  | nil => simpa using h
  | cons r rest ih =>
    simp only [List.foldl_cons]
    exact ih _ (insertDesc_pairwise a r acc h)

theorem sortDesc_pairwise (a : String) (l : List Row) :
    (sortDesc a l).Pairwise (fun r1 r2 => aggOf a r2 ≤ aggOf a r1) := by
  exact sortDesc_aux_pairwise a l [] (by simp)

theorem aggRow_get_a (g a : String) (t : AggType) (k : String) (vs : List ℚ) :
    Row.get (aggRow g a t k vs) a = .num (round2 (aggValue t vs)) := by
  by_cases h : g = a
  · subst h
    simp [aggRow, Row.insert, Row.get]
  · simp [aggRow, Row.insert, Row.get, h, Ne.symm h]

theorem aggRow_get_g (g a : String) (t : AggType) (k : String) (vs : List ℚ)
    (h : g ≠ a) : Row.get (aggRow g a t k vs) g = .str k := by
  simp [aggRow, Row.insert, Row.get, h, Ne.symm h]

theorem addToGroups_lookup_self (gs : List (String × List ℚ)) (k : String) (v : ℚ) :
    lookupG (addToGroups gs k v) k = some ((lookupG gs k).getD [] ++ [v]) := by
  induction gs with
  | nil => simp [addToGroups, lookupG]
  | cons p rest ih =>
    obtain ⟨k0, vs⟩ := p
    by_cases h : k0 = k
    · subst h
      simp [addToGroups, lookupG]
    · simp [addToGroups, lookupG, h] at ih ⊢
      exact ih

theorem addToGroups_lookup_other (gs : List (String × List ℚ)) (k : String) (v : ℚ)
    (k' : String) (h : k' ≠ k) :
    lookupG (addToGroups gs k v) k' = lookupG gs k' := by
  have hkk : k ≠ k' := fun he => h he.symm
  induction gs with
  | nil =>
    simp only [addToGroups, lookupG, List.find?_cons, List.find?_nil]
    rw [show (decide (k = k')) = false by simp [hkk]]
  | cons p rest ih =>
    obtain ⟨k0, vs⟩ := p
    unfold addToGroups
    by_cases h0 : k0 = k
    · have hk0 : k0 ≠ k' := by rw [h0]; exact hkk
      simp only [if_pos h0, lookupG, List.find?_cons]
      rw [show (decide (k0 = k')) = false by simp [hk0]]
    · simp only [if_neg h0, lookupG, List.find?_cons]
      by_cases h1 : k0 = k'
      · rw [show (decide (k0 = k')) = true by simp [h1]]
      · rw [show (decide (k0 = k')) = false by simp [h1]]
        simpa [lookupG] using ih

theorem addToGroups_fst (gs : List (String × List ℚ)) (k : String) (v : ℚ) :
    (addToGroups gs k v).map Prod.fst =
      if k ∈ gs.map Prod.fst then gs.map Prod.fst else gs.map Prod.fst ++ [k] := by
  induction gs with
  | nil => simp [addToGroups]
  | cons p rest ih =>
    obtain ⟨k0, vs⟩ := p
    by_cases h0 : k0 = k
    · subst h0
      simp [addToGroups]
    · have hne : k ≠ k0 := fun he => h0 he.symm
      simp only [addToGroups, if_neg h0, List.map_cons, List.mem_cons]
      rw [ih]
      by_cases hm : k ∈ rest.map Prod.fst
      · rw [if_pos hm, if_pos (Or.inr hm)]
      · rw [if_neg hm, if_neg (not_or.mpr ⟨hne, hm⟩), List.cons_append]

theorem addToGroups_fst_nodup (gs : List (String × List ℚ)) (k : String) (v : ℚ)
    (h : (gs.map Prod.fst).Nodup) : ((addToGroups gs k v).map Prod.fst).Nodup := by
  rw [addToGroups_fst]
  by_cases hm : k ∈ gs.map Prod.fst
  · simpa [hm] using h
  · rw [if_neg hm]
    refine List.Nodup.append h (List.nodup_singleton k) ?_
    intro x hx hx2
    rw [List.mem_singleton] at hx2
    exact hm (hx2 ▸ hx)

theorem groupVals_cons (g a : String) (k : String) (r : Row) (rows : List Row) :
    groupVals g a k (r :: rows) =
      if keyOf g r = k then valOf a r :: groupVals g a k rows else groupVals g a k rows := by
  by_cases h : keyOf g r = k
  · simp [groupVals, h]
  · simp [groupVals, h]

theorem buildGroupsAux_lookup_some (g a : String) (rows : List Row) :
    ∀ (gs : List (String × List ℚ)) (k : String) (vs : List ℚ),
      lookupG gs k = some vs →
      lookupG (rows.foldl (fun gs r => addToGroups gs (keyOf g r) (valOf a r)) gs) k =
        some (vs ++ groupVals g a k rows) := by
  induction rows with
  | nil => intro gs k vs h; simpa [groupVals] using h
  | cons r rest ih =>
    intro gs k vs h
    simp only [List.foldl_cons]
    by_cases hk : keyOf g r = k
    · subst hk
      have h1 : lookupG (addToGroups gs (keyOf g r) (valOf a r)) (keyOf g r) =
          some (vs ++ [valOf a r]) := by
        rw [addToGroups_lookup_self, h]
        rfl
      have h2 := ih _ _ _ h1
      rw [h2, groupVals_cons]
      simp
    · have h1 : lookupG (addToGroups gs (keyOf g r) (valOf a r)) k = some vs := by
        rw [addToGroups_lookup_other _ _ _ _ (fun he => hk he.symm), h]
      have h2 := ih _ _ _ h1
      rw [h2, groupVals_cons, if_neg hk]

theorem buildGroupsAux_lookup_none (g a : String) (rows : List Row) :
    ∀ (gs : List (String × List ℚ)) (k : String),
      lookupG gs k = none →
      lookupG (rows.foldl (fun gs r => addToGroups gs (keyOf g r) (valOf a r)) gs) k =
        if k ∈ rows.map (keyOf g) then some (groupVals g a k rows) else none := by
  induction rows with
  | nil => intro gs k h; simpa using h
  | cons r rest ih =>
    intro gs k h
    simp only [List.foldl_cons]
    by_cases hk : keyOf g r = k
    · subst hk
      have h1 : lookupG (addToGroups gs (keyOf g r) (valOf a r)) (keyOf g r) =
          some [valOf a r] := by
        rw [addToGroups_lookup_self, h]
        rfl
      have h2 := buildGroupsAux_lookup_some g a rest _ _ _ h1
      rw [h2, groupVals_cons]
      simp
    · have h1 : lookupG (addToGroups gs (keyOf g r) (valOf a r)) k = none := by
        rw [addToGroups_lookup_other _ _ _ _ (fun he => hk he.symm), h]
      have h2 := ih _ _ h1
      rw [h2, groupVals_cons, if_neg hk]
      have hcond : k ∈ (r :: rest).map (keyOf g) ↔ k ∈ rest.map (keyOf g) := by
        simp only [List.map_cons, List.mem_cons]
        exact or_iff_right (fun he => hk he.symm)
      simp only [hcond]

theorem buildGroupsAux_fst_mem (g a : String) (rows : List Row) :
    ∀ (gs : List (String × List ℚ)) (k : String),
      k ∈ (rows.foldl (fun gs r => addToGroups gs (keyOf g r) (valOf a r)) gs).map Prod.fst ↔
        k ∈ gs.map Prod.fst ∨ k ∈ rows.map (keyOf g) := by
  induction rows with
  | nil => intro gs k; simp
  | cons r rest ih =>
    intro gs k
    simp only [List.foldl_cons, List.map_cons, List.mem_cons]
    rw [ih]
    rw [addToGroups_fst]
    by_cases hm : keyOf g r ∈ gs.map Prod.fst
    · simp only [if_pos hm]
      constructor
      · rintro (h | h)
        · exact Or.inl h
        · exact Or.inr (Or.inr h)
      · rintro (h | h | h)
        · exact Or.inl h
        · exact Or.inl (h ▸ hm)
        · exact Or.inr h
    · simp only [if_neg hm, List.mem_append, List.mem_singleton]
      constructor
      · rintro ((h | h) | h)
        · exact Or.inl h
        · exact Or.inr (Or.inl h)
        · exact Or.inr (Or.inr h)
      · rintro (h | h | h)
        · exact Or.inl (Or.inl h)
        · exact Or.inl (Or.inr h)
        · exact Or.inr h

theorem buildGroupsAux_fst_nodup (g a : String) (rows : List Row) :
    ∀ (gs : List (String × List ℚ)),
      (gs.map Prod.fst).Nodup →
      ((rows.foldl (fun gs r => addToGroups gs (keyOf g r) (valOf a r)) gs).map Prod.fst).Nodup := by
  induction rows with
  | nil => intro gs h; simpa using h
  | cons r rest ih =>
    intro gs h
    simp only [List.foldl_cons]
    exact ih _ (addToGroups_fst_nodup _ _ _ h)

theorem buildGroups_fst_nodup (rows : List Row) (g a : String) :
    ((buildGroups rows g a).map Prod.fst).Nodup :=
  buildGroupsAux_fst_nodup g a rows [] (by simp)

theorem buildGroups_fst_mem (rows : List Row) (g a : String) (k : String) :
    k ∈ (buildGroups rows g a).map Prod.fst ↔ k ∈ rows.map (keyOf g) := by
  unfold buildGroups
  rw [buildGroupsAux_fst_mem]
  simp

theorem buildGroups_lookup (rows : List Row) (g a : String) (k : String) :
    lookupG (buildGroups rows g a) k =
      if k ∈ rows.map (keyOf g) then some (groupVals g a k rows) else none := by
  unfold buildGroups
  exact buildGroupsAux_lookup_none g a rows [] k (by simp [lookupG])

theorem lookupG_of_mem (gs : List (String × List ℚ)) (k : String) (vs : List ℚ)
    (hnd : (gs.map Prod.fst).Nodup) (hm : (k, vs) ∈ gs) : lookupG gs k = some vs := by
  induction gs with
  | nil => simp at hm
  | cons p rest ih =>
    obtain ⟨k0, vs0⟩ := p
    simp only [List.map_cons, List.nodup_cons] at hnd
    rcases List.mem_cons.mp hm with he | hm2
    · obtain ⟨h1, h2⟩ := Prod.mk.inj he
      subst h1
      subst h2
      simp [lookupG]
    · have hk0 : k0 ≠ k := by
        intro he
        subst he
        exact hnd.1 (List.mem_map.mpr ⟨(k0, vs), hm2, rfl⟩)
      simp only [lookupG, List.find?_cons]
      rw [show (decide (k0 = k)) = false by simp [hk0]]
      simpa [lookupG] using ih hnd.2 hm2

theorem buildGroups_mem_eq (rows : List Row) (g a : String) (k : String) (vs : List ℚ)
    (hm : (k, vs) ∈ buildGroups rows g a) :
    vs = groupVals g a k rows ∧ k ∈ rows.map (keyOf g) := by
  have hl := lookupG_of_mem _ _ _ (buildGroups_fst_nodup rows g a) hm
  have hk : k ∈ rows.map (keyOf g) := by
    rw [← buildGroups_fst_mem rows g a k]
    exact List.mem_map.mpr ⟨(k, vs), hm, rfl⟩
  rw [buildGroups_lookup, if_pos hk] at hl
  exact ⟨(Option.some_injective _ hl).symm, hk⟩

theorem keyFilter_length (gs : List (String × List ℚ)) (k : String)
    (hnd : (gs.map Prod.fst).Nodup) :
    (gs.filter (fun p => p.1 = k)).length = if k ∈ gs.map Prod.fst then 1 else 0 := by
  induction gs with
  | nil => simp
  | cons p rest ih =>
    obtain ⟨k0, vs0⟩ := p
    simp only [List.map_cons, List.nodup_cons] at hnd
    rw [List.filter_cons]
    by_cases h : k0 = k
    · subst h
      rw [if_pos (by simp), List.length_cons, ih hnd.2]
      simp only [List.map_cons, List.mem_cons]
      rw [if_neg hnd.1]
      simp
    · rw [if_neg (by simp [h]), ih hnd.2]
      simp only [List.map_cons, List.mem_cons]
      by_cases hm : k ∈ rest.map Prod.fst
      · rw [if_pos hm, if_pos (Or.inr hm)]
      · rw [if_neg hm, if_neg (not_or.mpr ⟨fun he => h he.symm, hm⟩)]

theorem foldl_add_comm_zip (x : List ℚ) :
    ∀ (y : List ℚ) (acc : ℚ),
      (x.zip y).foldl (fun a p => a + p.1 * p.2) acc =
        (y.zip x).foldl (fun a p => a + p.1 * p.2) acc := by
  induction x with
  | nil => intro y acc; cases y <;> simp
  | cons c cs ih =>
    intro y acc
    cases y with
    | nil => simp
    | cons d ds =>
      simp only [List.zip_cons_cons, List.foldl_cons]
      rw [mul_comm d c]
      exact ih ds (acc + c * d)

theorem pearsonNum_comm (x y : List ℚ) (h : x.length = y.length) :
    pearsonNum x y = pearsonNum y x := by
  unfold pearsonNum
  rw [h, foldl_add_comm_zip]
  ring

theorem pearsonDenomSq_comm (x y : List ℚ) (h : x.length = y.length) :
    pearsonDenomSq x y = pearsonDenomSq y x := by
  unfold pearsonDenomSq
  rw [h]
  ring

theorem calculatePearson_comm (x y : List ℚ) (h : x.length = y.length) :
    calculatePearson x y = calculatePearson y x := by
  unfold calculatePearson
  rw [h, pearsonNum_comm x y h, pearsonDenomSq_comm x y h]

theorem colVals_length (data : List Row) (col : String) :
    (colVals data col).length = data.length := by
  simp [colVals]

theorem calculateCorrelations_vars (data : List Row) (columns : List String) :
    (calculateCorrelations data columns).vars = numericColumns data columns := rfl

theorem calculateCorrelations_matrix_shape (data : List Row) (columns : List String) :
    (calculateCorrelations data columns).matrix.length =
        (numericColumns data columns).length
    ∧ ∀ row ∈ (calculateCorrelations data columns).matrix,
        row.length = (numericColumns data columns).length := by
  constructor
  · simp [calculateCorrelations]
  · intro row hrow
    simp only [calculateCorrelations, List.mem_map] at hrow
    obtain ⟨i, _, rfl⟩ := hrow
    rw [List.length_map, List.length_range]

theorem calculateCorrelations_matrix_def (data : List Row) (columns : List String) :
    (calculateCorrelations data columns).matrix =
      (List.range (numericColumns data columns).length).map (fun i =>
        (List.range (numericColumns data columns).length).map (fun j =>
          if i = j then (1 : ℝ)
          else calculatePearson
            (colVals data ((numericColumns data columns).getD i ""))
            (colVals data ((numericColumns data columns).getD j "")))) := rfl

theorem calculateCorrelations_entry (data : List Row) (columns : List String)
    (i j : ℕ) (hi : i < (numericColumns data columns).length)
    (hj : j < (numericColumns data columns).length) :
    (((calculateCorrelations data columns).matrix.getD i []).getD j 0) =
      if i = j then 1
      else calculatePearson
        (colVals data ((numericColumns data columns).getD i ""))
        (colVals data ((numericColumns data columns).getD j "")) := by
  rw [calculateCorrelations_matrix_def]
  simp only [List.getD_eq_getElem?_getD]
  rw [List.getElem?_map, List.getElem?_range hi]
  simp only [Option.map_some', Option.getD_some]
  rw [List.getElem?_map, List.getElem?_range hj]
  simp only [Option.map_some', Option.getD_some]

theorem calculatePearson_zero_denom (x y : List ℚ) (h : pearsonDenomSq x y = 0) :
    calculatePearson x y = 0 := by
  unfold calculatePearson
  by_cases hx : x.length = 0
  · simp [hx]
  · simp only [hx, if_false]
    rw [h]
    simp

theorem groupStage_nil (intent : QueryIntent) : groupStage [] intent = [] := by
  obtain ⟨fs, gb, ac, aty⟩ := intent
  cases gb with
  | none => rfl
  | some g =>
    cases ac with
    | none => rfl
    | some a =>
      cases aty with
      | none => rfl
      | some t =>
        show (if g ≠ "" ∧ a ≠ "" then groupedResult [] g a t else []) = []
        by_cases hcond : g ≠ "" ∧ a ≠ ""
        · rw [if_pos hcond]; rfl
        · rw [if_neg hcond]

theorem groupStage_incomplete (rows : List Row) (intent : QueryIntent)
    (h : intent.groupBy = none ∨ intent.aggregateColumn = none ∨
      intent.aggregateType = none) :
    groupStage rows intent = rows := by
  obtain ⟨fs, gb, ac, aty⟩ := intent
  simp only at h
  rcases h with h | h | h
  · subst h; rfl
  · subst h; cases gb <;> rfl
  · subst h; cases gb <;> cases ac <;> rfl

theorem groupStage_complete (rows : List Row) (intent : QueryIntent)
    (g a : String) (t : AggType)
    (hg : intent.groupBy = some g) (ha : intent.aggregateColumn = some a)
    (ht : intent.aggregateType = some t) (hg0 : g ≠ "") (ha0 : a ≠ "") :
    groupStage rows intent = groupedResult rows g a t := by
  unfold groupStage
  rw [hg, ha, ht]
  show (if g ≠ "" ∧ a ≠ "" then groupedResult rows g a t else rows) = groupedResult rows g a t
  rw [if_pos ⟨hg0, ha0⟩]

/-! ### Claim theorems -/

/-- C6: parsing a well-formed CSV (at least one non-blank line) whose
accepted data-row count is `N` yields a dataset retaining the first
`min 3000 N` accepted rows — all of them when `N ≤ 3000`, exactly 3000
when `N > 3000` — while the recorded total row count is the untruncated
`N`. -/
theorem parseCSV_row_accounting (text fileName : String) (l0 : String) (ls : List String)
    (h : (splitLines text).filter (fun l => jsTrim l ≠ "") = l0 :: ls) :
    ∃ ds : Dataset, parseCSV text fileName = some ds
      ∧ ds.rowCount = (ls.filter (fun l =>
          (splitOnComma l).length = (parsedHeaders l0).length)).length
      ∧ ds.data = ((ls.filter (fun l =>
          (splitOnComma l).length = (parsedHeaders l0).length)).map
          (fun l => mkRow (parsedHeaders l0) (splitOnComma l))).take 3000
      ∧ ds.data.length = min 3000 (ls.filter (fun l =>
          (splitOnComma l).length = (parsedHeaders l0).length)).length
      ∧ ((ls.filter (fun l =>
            (splitOnComma l).length = (parsedHeaders l0).length)).length ≤ 3000 →
          ds.data.length = (ls.filter (fun l =>
            (splitOnComma l).length = (parsedHeaders l0).length)).length)
      ∧ (3000 < (ls.filter (fun l =>
            (splitOnComma l).length = (parsedHeaders l0).length)).length →
          ds.data.length = 3000) := by
  have hp : parseCSV text fileName = some {
      name := fileName,
      data := ((ls.filter (fun l =>
          (splitOnComma l).length = (parsedHeaders l0).length)).map
          (fun l => mkRow (parsedHeaders l0) (splitOnComma l))).take 3000,
      rowCount := ((ls.filter (fun l =>
          (splitOnComma l).length = (parsedHeaders l0).length)).map
          (fun l => mkRow (parsedHeaders l0) (splitOnComma l))).length } := by
    unfold parseCSV
    rw [h]
  refine ⟨_, hp, by simp [List.length_map], rfl, ?_, ?_, ?_⟩
  · simp [List.length_take]
  · intro hle
    simp only [List.length_take, List.length_map]
    omega
  · intro hlt
    simp only [List.length_take, List.length_map]
    omega

/-- C6 witness: a 3-line CSV with one malformed data line parses to two
retained rows and total row count 2. -/
theorem parseCSV_row_accounting_witness :
    ∃ ds : Dataset, parseCSV "a,b\n1,2\n3,x,y\n4,hello\n" "f.csv" = some ds
      ∧ ds.rowCount = 2 ∧ ds.data.length = 2 := by
  obtain ⟨ds, hds, hrc, _, _, hle, _⟩ :=
    parseCSV_row_accounting "a,b\n1,2\n3,x,y\n4,hello\n" "f.csv"
      "a,b" ["1,2", "3,x,y", "4,hello"] (by with_unfolding_all decide)
  refine ⟨ds, hds, ?_, ?_⟩
  · rw [hrc]; with_unfolding_all decide
  · rw [hle (by with_unfolding_all decide)]; with_unfolding_all decide

/-- C7: each CSV cell is trimmed, stripped of one layer of wrapping
quotes, and then coerced: a non-empty cleaned string accepted by the
numeric grammar is stored as that number, anything else stays the cleaned
string, and the empty string stays the empty string, never `0`. -/
theorem parseField_coercion (raw : String) :
    (∀ q : ℚ, parseNumber (stripQuotes (jsTrim raw)) = some q →
      stripQuotes (jsTrim raw) ≠ "" → parseField raw = .num q)
    ∧ (parseNumber (stripQuotes (jsTrim raw)) = none →
      parseField raw = .str (stripQuotes (jsTrim raw)))
    ∧ (stripQuotes (jsTrim raw) = "" → parseField raw = .str "")
    ∧ parseField "42" = .num 42
    ∧ parseField "42abc" = .str "42abc"
    ∧ parseField "" = .str ""
    ∧ parseField " \"42\" " = .num 42 := by
  refine ⟨?_, ?_, ?_, by with_unfolding_all decide, by with_unfolding_all decide,
    by with_unfolding_all decide, by with_unfolding_all decide⟩
  · intro q hq hne
    unfold parseField
    rw [hq]
    show (if stripQuotes (jsTrim raw) ≠ "" then Value.num q
      else Value.str (stripQuotes (jsTrim raw))) = Value.num q
    rw [if_pos hne]
  · intro hq
    unfold parseField
    rw [hq]
  · intro hz
    unfold parseField
    rw [hz]
    have h0 : parseNumber "" = some 0 := by with_unfolding_all decide
    rw [h0]
    show (if ("" : String) ≠ "" then Value.num 0 else Value.str "") = Value.str ""
    simp

/-- C7 witness: the numeric branch and the string branch at concrete
inputs, through the main theorem. -/
theorem parseField_coercion_witness :
    parseField "7" = Value.num 7 ∧ parseField "x7" = Value.str "x7" := by
  refine ⟨(parseField_coercion "7").1 7 ?_ ?_, ?_⟩
  · with_unfolding_all decide
  · with_unfolding_all decide
  · have h := (parseField_coercion "x7").2.1 (by with_unfolding_all decide)
    simpa using h

/-- C5: the filter stage keeps a row exactly when every filter accepts it
(logical AND); the `==` operator is case-insensitive string equality of
the stringified raw row value and filter value; an unknown operator
passes every row (fail-open). -/
theorem queryFilter_semantics (data : List Row) (filters : List QueryFilter) (r : Row) :
    (filterRows filters data = data.filter (fun row => filters.all (satisfiesFilter row)))
    ∧ (r ∈ filterRows filters data ↔ r ∈ data ∧ ∀ f ∈ filters, satisfiesFilter r f = true)
    ∧ (∀ c v, satisfiesFilter r { column := c, op := "==", value := v } = true ↔
        jsToLower (Value.toStr (Row.get r c)) = jsToLower (Value.toStr v))
    ∧ (∀ c v o, o ∉ (["==", ">", "<", ">=", "<=", "contains"] : List String) →
        satisfiesFilter r { column := c, op := o, value := v } = true) := by
  have hfr : filterRows filters data =
      data.filter (fun row => filters.all (satisfiesFilter row)) := by
    by_cases hf : filters = []
    · subst hf
      simp [filterRows]
    · unfold filterRows
      rw [if_pos (by simpa [List.length_pos] using hf)]
  refine ⟨hfr, ?_, ?_, ?_⟩
  · rw [hfr, List.mem_filter]
    simp [List.all_eq_true]
  · intro c v
    simp [satisfiesFilter]
  · intro c v o ho
    have h1 : o ≠ "==" := fun he => ho (by simp [he])
    have h2 : o ≠ ">" := fun he => ho (by simp [he])
    have h3 : o ≠ "<" := fun he => ho (by simp [he])
    have h4 : o ≠ ">=" := fun he => ho (by simp [he])
    have h5 : o ≠ "<=" := fun he => ho (by simp [he])
    have h6 : o ≠ "contains" := fun he => ho (by simp [he])
    unfold satisfiesFilter
    simp [h1, h2, h3, h4, h5, h6]

/-- C5 witness: a concrete row passes an unknown operator, and the `==`
semantics at a concrete match. -/
theorem queryFilter_semantics_witness :
    satisfiesFilter [("a", Value.num 1)]
      { column := "a", op := "!=", value := Value.str "zzz" } = true
    ∧ satisfiesFilter [("a", Value.str "ABC")]
      { column := "a", op := "==", value := Value.str "abc" } = true := by
  constructor
  · exact (queryFilter_semantics [] [] [("a", Value.num 1)]).2.2.2 "a" (Value.str "zzz")
      "!=" (by with_unfolding_all decide)
  · exact ((queryFilter_semantics [] [] [("a", Value.str "ABC")]).2.2.1 "a"
      (Value.str "abc")).mpr (by with_unfolding_all decide)

/-- C2 counterexample: with a single confirmed-numeric column the engine
does not report an insufficient-data condition — its Lean type is total
and it returns the 1×1 matrix `[[1]]` (variables list of length 1). -/
theorem correlations_singleton_counterexample :
    (calculateCorrelations [[("a", Value.num 1)]] ["a"]).vars = ["a"]
    ∧ (calculateCorrelations [[("a", Value.num 1)]] ["a"]).matrix = [[1]] := by
  constructor
  · with_unfolding_all decide
  · with_unfolding_all rfl

/-- C2 amended: when fewer than two candidate columns are confirmed
numeric, `calculateCorrelations` returns the degenerate (0×0 or 1×1)
matrix, and the insufficient-data condition is detected by the caller
(`CorrelationHeatmap`), whose fallback test `variables.length < 2` then
fires. -/
theorem correlations_degenerate_caller_check (data : List Row) (columns : List String)
    (h : (numericColumns data columns).length < 2) :
    (calculateCorrelations data columns).vars.length < 2
    ∧ (calculateCorrelations data columns).matrix.length < 2
    ∧ heatmapInsufficient (calculateCorrelations data columns) = true := by
  refine ⟨?_, ?_, ?_⟩
  · rw [calculateCorrelations_vars]; exact h
  · rw [(calculateCorrelations_matrix_shape data columns).1]; exact h
  · unfold heatmapInsufficient
    rw [calculateCorrelations_vars]
    simpa using h

/-- C2 witness: the degeneracy path at a concrete single-column input. -/
theorem correlations_degenerate_caller_check_witness :
    (calculateCorrelations [[("a", Value.num 1)]] ["a"]).vars.length < 2
    ∧ heatmapInsufficient (calculateCorrelations [[("a", Value.num 1)]] ["a"]) = true := by
  have h := correlations_degenerate_caller_check [[("a", Value.num 1)]] ["a"]
    (by with_unfolding_all decide)
  exact ⟨h.1, h.2.2⟩

/-- C9: a candidate column appears in the variable list exactly when it
is a candidate and every one of the first 50 rows (all rows if fewer)
holds a number in it; a column non-numeric anywhere in that window is
excluded entirely. -/
theorem correlations_numeric_window (data : List Row) (columns : List String) (c : String) :
    (c ∈ (calculateCorrelations data columns).vars ↔
      c ∈ columns ∧ ∀ r ∈ data.take 50, (Row.get r c).isNum = true)
    ∧ ((c ∈ columns ∧ ∃ r ∈ data.take 50, (Row.get r c).isNum = false) →
      c ∉ (calculateCorrelations data columns).vars) := by
  have hiff : c ∈ (calculateCorrelations data columns).vars ↔
      c ∈ columns ∧ ∀ r ∈ data.take 50, (Row.get r c).isNum = true := by
    rw [calculateCorrelations_vars]
    unfold numericColumns
    rw [List.mem_filter]
    simp [List.all_eq_true]
  refine ⟨hiff, ?_⟩
  rintro ⟨hc, r, hr, hfalse⟩ hmem
  have hall := (hiff.mp hmem).2 r hr
  rw [hfalse] at hall
  exact absurd hall (by simp)

/-- C9 witness: a column with a string in its first row is excluded. -/
theorem correlations_numeric_window_witness :
    "b" ∉ (calculateCorrelations [[("a", Value.num 1), ("b", Value.str "x")]]
      ["a", "b"]).vars := by
  refine (correlations_numeric_window
    [[("a", Value.num 1), ("b", Value.str "x")]] ["a", "b"] "b").2 ?_
  refine ⟨by with_unfolding_all decide,
    [("a", Value.num 1), ("b", Value.str "x")], ?_, ?_⟩
  · with_unfolding_all decide
  · with_unfolding_all decide

/-- C10: on an empty row sequence the 50-row numericity check is vacuous,
so every candidate is confirmed: the variable list is the whole candidate
list, diagonal entries are 1 and off-diagonal entries are 0 (the
zero-length branch of the Pearson computation). -/
theorem correlations_empty_data (columns : List String) :
    (calculateCorrelations [] columns).vars = columns
    ∧ (∀ i, i < columns.length →
        ((calculateCorrelations [] columns).matrix.getD i []).getD i 0 = 1)
    ∧ (∀ i j, i < columns.length → j < columns.length → i ≠ j →
        ((calculateCorrelations [] columns).matrix.getD i []).getD j 0 = 0) := by
  have hnc : numericColumns [] columns = columns := by
    unfold numericColumns
    simp
  refine ⟨by rw [calculateCorrelations_vars, hnc], ?_, ?_⟩
  · intro i hi
    have hi' : i < (numericColumns [] columns).length := by rw [hnc]; exact hi
    rw [calculateCorrelations_entry [] columns i i hi' hi']
    simp
  · intro i j hi hj hij
    have hi' : i < (numericColumns [] columns).length := by rw [hnc]; exact hi
    have hj' : j < (numericColumns [] columns).length := by rw [hnc]; exact hj
    rw [calculateCorrelations_entry [] columns i j hi' hj', if_neg hij]
    show calculatePearson (colVals [] _) (colVals [] _) = 0
    unfold colVals calculatePearson
    simp

/-- C10 witness: the empty-data matrix over two candidate columns. -/
theorem correlations_empty_data_witness :
    (calculateCorrelations [] ["a", "b"]).vars = ["a", "b"]
    ∧ ((calculateCorrelations [] ["a", "b"]).matrix.getD 0 []).getD 0 0 = 1
    ∧ ((calculateCorrelations [] ["a", "b"]).matrix.getD 0 []).getD 1 0 = 0 := by
  have h := correlations_empty_data ["a", "b"]
  exact ⟨h.1, h.2.1 0 (by decide), h.2.2 0 1 (by decide) (by decide) (by decide)⟩

/-- C1 counterexample: `findKey` does not trim, so the chart key
`"Region "` (trailing space) does not case-insensitively match the real
column `"region"`; it stays unresolved and the chart — whose other key is
valid — is dropped instead of being repaired as the claim asserts. -/
theorem sanitize_trailing_space_counterexample :
    findKey ["region"] "Region " = "Region "
    ∧ (sanitizeAnalysisResult
        { summary := "s", columns := [], insights := [],
          recommendedCharts := [{
            id := "c1", type := ChartType.BAR, title := "t",
            description := "d", xKey := "Region ", yKey := "region",
            categoryKey := none }] }
        { name := "ds", data := [[("region", Value.num 1)]],
          rowCount := 1 }).recommendedCharts = [] := by
  constructor
  · with_unfolding_all decide
  · with_unfolding_all decide

/-- C1 amended: on a non-empty dataset each chart key resolves as the
spec's rule describes — exact match wins, else the first case-insensitive
match, else the original is kept (so a wrong-case `"Region"` resolves to
`"region"`, but a trailing-space `"Region "` does not resolve) — and a
chart is dropped exactly when its resolved `xKey` or `yKey` is not a real
column name; `categoryKey` is not consulted by the drop test. -/
theorem sanitize_reconciliation (res : AnalysisResult) (ds : Dataset)
    (r0 : Row) (rest : List Row) (h : ds.data = r0 :: rest) :
    (sanitizeAnalysisResult res ds).recommendedCharts =
      (res.recommendedCharts.map (sanitizeChart (r0.map Prod.fst))).filter
        (fun c => (r0.map Prod.fst).contains c.xKey &&
          (r0.map Prod.fst).contains c.yKey)
    ∧ (∀ k, findKey (r0.map Prod.fst) k = resolveKeySpec (r0.map Prod.fst) k)
    ∧ (∀ c : ChartConfig,
        (sanitizeChart (r0.map Prod.fst) c).xKey =
          resolveKeySpec (r0.map Prod.fst) c.xKey
        ∧ (sanitizeChart (r0.map Prod.fst) c).yKey =
          resolveKeySpec (r0.map Prod.fst) c.yKey)
    ∧ findKey ["region"] "Region" = "region" := by
  refine ⟨?_, fun k => findKey_eq_resolveKeySpec _ k, ?_, by with_unfolding_all decide⟩
  · unfold sanitizeAnalysisResult
    rw [h]
  · intro c
    exact ⟨findKey_eq_resolveKeySpec _ _, findKey_eq_resolveKeySpec _ _⟩

/-- C1 witness: the reconciliation theorem applied to a concrete dataset
with column `"region"`; the wrong-case key `"Region"` resolves. -/
theorem sanitize_reconciliation_witness :
    findKey ((([("region", Value.num 1)] : Row)).map Prod.fst) "Region" =
      resolveKeySpec ((([("region", Value.num 1)] : Row)).map Prod.fst) "Region"
    ∧ findKey ["region"] "Region" = "region" := by
  have h := sanitize_reconciliation
    { summary := "s", columns := [], insights := [], recommendedCharts := [] }
    { name := "ds", data := [[("region", Value.num 1)]], rowCount := 1 }
    [("region", Value.num 1)] [] rfl
  exact ⟨h.2.1 "Region", h.2.2.2⟩

/-- C4: `queryData` is total and degrades gracefully: the result is always
capped at 50 rows, an all-filtering intent yields the empty sequence, an
incomplete grouping directive (any of the three parts absent) yields the
filtered-but-ungrouped rows capped at 50, and a grouping that produces 80
distinct groups yields exactly 50 rows. -/
theorem queryData_degradation (data : List Row) (intent : QueryIntent) :
    (queryData data intent).length ≤ 50
    ∧ (filterRows intent.filters data = [] → queryData data intent = [])
    ∧ ((intent.groupBy = none ∨ intent.aggregateColumn = none ∨
          intent.aggregateType = none) →
        queryData data intent = (filterRows intent.filters data).take 50)
    ∧ (queryData ((List.range 80).map (fun i =>
          [("cat", Value.str (toString i)), ("v", Value.num (i : ℚ))]))
        { filters := [], groupBy := some "cat", aggregateColumn := some "v",
          aggregateType := some AggType.SUM }).length = 50 := by
  refine ⟨?_, ?_, ?_, by with_unfolding_all decide⟩
  · unfold queryData
    exact List.length_take_le _ _
  · intro h
    unfold queryData
    rw [h, groupStage_nil]
    rfl
  · intro h
    unfold queryData
    rw [groupStage_incomplete _ _ h]

/-- C4 witness: a concrete all-filtering intent with no grouping yields
the empty result, and the cap bound holds there. -/
theorem queryData_degradation_witness :
    queryData [[("a", Value.num 1)]]
      { filters := [{ column := "a", op := "==", value := Value.str "zzz" }],
        groupBy := none, aggregateColumn := none, aggregateType := none } = []
    ∧ (queryData [[("a", Value.num 1)]]
        { filters := [{ column := "a", op := "==", value := Value.str "zzz" }],
          groupBy := none, aggregateColumn := none, aggregateType := none }).length ≤ 50 := by
  have h := queryData_degradation [[("a", Value.num 1)]]
    { filters := [{ column := "a", op := "==", value := Value.str "zzz" }],
      groupBy := none, aggregateColumn := none, aggregateType := none }
  exact ⟨h.2.1 (by with_unfolding_all decide), h.1⟩

/-- C8: the correlation matrix is square over the confirmed-numeric
variables, has exactly 1 on the diagonal, is symmetric, and every
off-diagonal entry is the rounded Pearson coefficient computed over the
full row sequence, equal to 0 whenever the Pearson denominator is zero.
The hypothesis that every retained row holds a number in each confirmed
column delimits the domain on which the exact-arithmetic embedding of
the JS computation is faithful (non-numeric values beyond the 50-row
confirmation window drive the JS arithmetic into NaN, which has no `ℝ`
counterpart). -/
theorem correlations_matrix_properties (data : List Row) (columns : List String)
    (_hnum : ∀ r ∈ data, ∀ c ∈ numericColumns data columns,
      (Row.get r c).isNum = true) :
    (calculateCorrelations data columns).vars = numericColumns data columns
    ∧ (calculateCorrelations data columns).matrix.length =
        (numericColumns data columns).length
    ∧ (∀ row ∈ (calculateCorrelations data columns).matrix,
        row.length = (numericColumns data columns).length)
    ∧ (∀ i, i < (numericColumns data columns).length →
        ((calculateCorrelations data columns).matrix.getD i []).getD i 0 = 1)
    ∧ (∀ i j, i < (numericColumns data columns).length →
        j < (numericColumns data columns).length →
        ((calculateCorrelations data columns).matrix.getD i []).getD j 0 =
          ((calculateCorrelations data columns).matrix.getD j []).getD i 0)
    ∧ (∀ i j, i < (numericColumns data columns).length →
        j < (numericColumns data columns).length → i ≠ j →
        ((calculateCorrelations data columns).matrix.getD i []).getD j 0 =
          calculatePearson
            (colVals data ((numericColumns data columns).getD i ""))
            (colVals data ((numericColumns data columns).getD j "")))
    ∧ (∀ i j, i < (numericColumns data columns).length →
        j < (numericColumns data columns).length → i ≠ j →
        pearsonDenomSq (colVals data ((numericColumns data columns).getD i ""))
          (colVals data ((numericColumns data columns).getD j "")) = 0 →
        ((calculateCorrelations data columns).matrix.getD i []).getD j 0 = 0) := by
  refine ⟨rfl, (calculateCorrelations_matrix_shape data columns).1,
    (calculateCorrelations_matrix_shape data columns).2, ?_, ?_, ?_, ?_⟩
  · intro i hi
    rw [calculateCorrelations_entry data columns i i hi hi]
    simp
  · intro i j hi hj
    rw [calculateCorrelations_entry data columns i j hi hj,
      calculateCorrelations_entry data columns j i hj hi]
    by_cases hij : i = j
    · subst hij
      simp
    · rw [if_neg hij, if_neg (Ne.symm hij)]
      exact calculatePearson_comm _ _ (by rw [colVals_length, colVals_length])
  · intro i j hi hj hij
    rw [calculateCorrelations_entry data columns i j hi hj, if_neg hij]
  · intro i j hi hj hij hdenom
    rw [calculateCorrelations_entry data columns i j hi hj, if_neg hij]
    exact calculatePearson_zero_denom _ _ hdenom

/-- C8 witness: the matrix facts at a concrete fully numeric dataset. -/
theorem correlations_matrix_properties_witness :
    ((calculateCorrelations
        [[("a", Value.num 1), ("b", Value.num 2)],
         [("a", Value.num 2), ("b", Value.num 4)],
         [("a", Value.num 3), ("b", Value.num 6)]] ["a", "b"]).matrix.getD 0 []).getD 0 0 = 1
    ∧ ((calculateCorrelations
        [[("a", Value.num 1), ("b", Value.num 2)],
         [("a", Value.num 2), ("b", Value.num 4)],
         [("a", Value.num 3), ("b", Value.num 6)]] ["a", "b"]).matrix.getD 0 []).getD 1 0 =
      ((calculateCorrelations
        [[("a", Value.num 1), ("b", Value.num 2)],
         [("a", Value.num 2), ("b", Value.num 4)],
         [("a", Value.num 3), ("b", Value.num 6)]] ["a", "b"]).matrix.getD 1 []).getD 0 0
    ∧ ((calculateCorrelations
        [[("a", Value.num 1), ("b", Value.num 2)],
         [("a", Value.num 2), ("b", Value.num 4)],
         [("a", Value.num 3), ("b", Value.num 6)]] ["a", "b"]).matrix.getD 0 []).getD 1 0 =
      calculatePearson
        (colVals [[("a", Value.num 1), ("b", Value.num 2)],
          [("a", Value.num 2), ("b", Value.num 4)],
          [("a", Value.num 3), ("b", Value.num 6)]]
          ((numericColumns [[("a", Value.num 1), ("b", Value.num 2)],
            [("a", Value.num 2), ("b", Value.num 4)],
            [("a", Value.num 3), ("b", Value.num 6)]] ["a", "b"]).getD 0 ""))
        (colVals [[("a", Value.num 1), ("b", Value.num 2)],
          [("a", Value.num 2), ("b", Value.num 4)],
          [("a", Value.num 3), ("b", Value.num 6)]]
          ((numericColumns [[("a", Value.num 1), ("b", Value.num 2)],
            [("a", Value.num 2), ("b", Value.num 4)],
            [("a", Value.num 3), ("b", Value.num 6)]] ["a", "b"]).getD 1 "")) := by
  have h := correlations_matrix_properties
    [[("a", Value.num 1), ("b", Value.num 2)],
     [("a", Value.num 2), ("b", Value.num 4)],
     [("a", Value.num 3), ("b", Value.num 6)]] ["a", "b"] (by decide)
  exact ⟨h.2.2.2.1 0 (by decide), h.2.2.2.2.1 0 1 (by decide) (by decide),
    h.2.2.2.2.2.1 0 1 (by decide) (by decide) (by decide)⟩

/-- C3 counterexample: when the group-by column and the aggregate column
coincide, the single output field holds the rounded aggregate number, not
the group key string, so the claim's field-content assertion fails. -/
theorem group_key_field_counterexample :
    queryData [[("v", Value.num 1)]]
      { filters := [], groupBy := some "v", aggregateColumn := some "v",
        aggregateType := some AggType.SUM } = [[("v", Value.num 1)]]
    ∧ Row.get [("v", Value.num 1)] "v" ≠ Value.str "1" := by
  constructor
  · with_unfolding_all decide
  · with_unfolding_all decide

/-- C3 amended: for an intent carrying a group-by column, an aggregate
column, and an aggregate kind (non-empty, and with the two columns
distinct — when they coincide the single field holds the rounded
aggregate instead of the key string), `queryData` partitions the filtered
rows by the string form of the group-by value, aggregates the coerced
values per group (`SUM`/`AVG`/`COUNT`/`COUNT_DISTINCT`, the latter over
distinct coerced numbers), rounds to 2 decimals, emits exactly one row
per distinct key carrying the key string and the rounded value, sorts
descending by aggregate value, and returns the first 50 rows. -/
theorem queryData_group_aggregate (data : List Row) (intent : QueryIntent)
    (g a : String) (t : AggType)
    (hg : intent.groupBy = some g) (ha : intent.aggregateColumn = some a)
    (ht : intent.aggregateType = some t) (hg0 : g ≠ "") (ha0 : a ≠ "")
    (hga : g ≠ a) :
    queryData data intent =
      (groupedResult (filterRows intent.filters data) g a t).take 50
    ∧ (∀ r ∈ groupedResult (filterRows intent.filters data) g a t, ∃ k,
        k ∈ (filterRows intent.filters data).map (keyOf g)
        ∧ Row.get r g = Value.str k
        ∧ Row.get r a = Value.num (round2 (aggValue t
            (groupVals g a k (filterRows intent.filters data)))))
    ∧ (∀ k, ((groupedResult (filterRows intent.filters data) g a t).filter
          (fun r => Row.get r g = Value.str k)).length =
        if k ∈ (filterRows intent.filters data).map (keyOf g) then 1 else 0)
    ∧ (groupedResult (filterRows intent.filters data) g a t).Pairwise
        (fun r1 r2 => aggOf a r2 ≤ aggOf a r1)
    ∧ aggValue AggType.COUNT_DISTINCT [1, 1, 2] = 2
    ∧ queryData
        [[("cat", Value.str "x"), ("v", Value.num 1)],
         [("cat", Value.str "x"), ("v", Value.num 3)],
         [("cat", Value.str "y"), ("v", Value.num 2)]]
        { filters := [], groupBy := some "cat", aggregateColumn := some "v",
          aggregateType := some AggType.SUM } =
      [[("cat", Value.str "x"), ("v", Value.num 4)],
       [("cat", Value.str "y"), ("v", Value.num 2)]] := by
  refine ⟨?_, ?_, ?_, sortDesc_pairwise a _, by with_unfolding_all decide,
    by with_unfolding_all decide⟩
  · unfold queryData
    rw [groupStage_complete _ _ g a t hg ha ht hg0 ha0]
  · intro r hr
    unfold groupedResult at hr
    have hr0 : r ∈ (buildGroups (filterRows intent.filters data) g a).map
        (fun p => aggRow g a t p.1 p.2) := ((sortDesc_perm a _).mem_iff).mp hr
    obtain ⟨p, hp, rfl⟩ := List.mem_map.mp hr0
    obtain ⟨hvs, hkmem⟩ := buildGroups_mem_eq _ g a p.1 p.2 hp
    refine ⟨p.1, hkmem, aggRow_get_g g a t p.1 p.2 hga, ?_⟩
    rw [aggRow_get_a, hvs]
  · intro k
    unfold groupedResult
    have hperm := (sortDesc_perm a ((buildGroups (filterRows intent.filters data) g a).map
      (fun p => aggRow g a t p.1 p.2))).filter
      (fun r => decide (Row.get r g = Value.str k))
    rw [hperm.length_eq, List.filter_map, List.length_map]
    have hcongr : (buildGroups (filterRows intent.filters data) g a).filter
        ((fun r => decide (Row.get r g = Value.str k)) ∘ (fun p => aggRow g a t p.1 p.2)) =
        (buildGroups (filterRows intent.filters data) g a).filter
          (fun p => decide (p.1 = k)) := by
      apply List.filter_congr
      intro p hp
      simp only [Function.comp_apply, aggRow_get_g g a t p.1 p.2 hga]
      simp [Value.str.injEq]
    rw [hcongr, keyFilter_length _ _ (buildGroups_fst_nodup _ g a)]
    by_cases hm : k ∈ (filterRows intent.filters data).map (keyOf g)
    · rw [if_pos ((buildGroups_fst_mem _ g a k).mpr hm), if_pos hm]
    · rw [if_neg (fun hx => hm ((buildGroups_fst_mem _ g a k).mp hx)), if_neg hm]

/-- C3 witness: the grouped query at the spec's concrete example, and the
exactly-one-row-per-key property at the key `"x"`. -/
theorem queryData_group_aggregate_witness :
    queryData
      [[("cat", Value.str "x"), ("v", Value.num 1)],
       [("cat", Value.str "x"), ("v", Value.num 3)],
       [("cat", Value.str "y"), ("v", Value.num 2)]]
      { filters := [], groupBy := some "cat", aggregateColumn := some "v",
        aggregateType := some AggType.SUM } =
    [[("cat", Value.str "x"), ("v", Value.num 4)],
     [("cat", Value.str "y"), ("v", Value.num 2)]]
    ∧ ((groupedResult (filterRows []
        [[("cat", Value.str "x"), ("v", Value.num 1)],
         [("cat", Value.str "x"), ("v", Value.num 3)],
         [("cat", Value.str "y"), ("v", Value.num 2)]]) "cat" "v" AggType.SUM).filter
        (fun r => Row.get r "cat" = Value.str "x")).length = 1 := by
  have h := queryData_group_aggregate
    [[("cat", Value.str "x"), ("v", Value.num 1)],
     [("cat", Value.str "x"), ("v", Value.num 3)],
     [("cat", Value.str "y"), ("v", Value.num 2)]]
    { filters := [], groupBy := some "cat", aggregateColumn := some "v",
      aggregateType := some AggType.SUM }
    "cat" "v" AggType.SUM rfl rfl rfl (by decide) (by decide) (by decide)
  refine ⟨h.2.2.2.2.2, ?_⟩
  have h3 := h.2.2.1 "x"
  rw [if_pos (by with_unfolding_all decide)] at h3
  exact h3

end AutoViz
